import Mathlib

/-!
Shallow embedding of the pan/tilt tracking firmware (`src/cortex_srt_arduino/src/main.cpp`).

The core of the firmware is `parseCommand`: it splits a serial line
`"<panDelta>:<tiltDelta>:<laser>"` at its first two `:` delimiters, parses the three
fields with the permissive C conversions `atof` / `atol`, updates the two persisted
angles `currentPan` / `currentTilt` (delta targeting, clamping, exponential smoothing)
and writes two servo pulse widths plus one laser pin level.

Modelling choices:
* `float` values are idealised as rationals (`ℚ`); the constant `0.3` becomes `3/10`.
* Arduino `String` is a `List Char`; `indexOf` / `substring` follow the Arduino
  `WString.cpp` semantics (`-1` sentinel, argument swapping and clamping).
* `String.toFloat` / `String.toInt` are modelled after avr-libc `atof` / `atol`
  (skip blanks, optional sign, digits, optional fraction and exponent; unparsable
  text yields zero).  The special forms `INF` / `NAN` / hex floats are not modelled:
  no command field in this development uses them.
* Machine integers (`int` / `long`) are `ℤ`; the values reached here are far from
  any overflow boundary.  C truncating division and float-to-integer casts use
  `Int.tdiv` (round toward zero).
* The three hardware writes of an accepted command are recorded as an `Effect` list.
-/

namespace SRT

/-- `const int PAN_MIN = 0` (main.cpp line 19). -/
def PAN_MIN : ℤ := 0

/-- `const int PAN_MAX = 180` (main.cpp line 20). -/
def PAN_MAX : ℤ := 180

/-- `const int TILT_MIN = 0` (main.cpp line 21). -/
def TILT_MIN : ℤ := 0

/-- `const int TILT_MAX = 180` (main.cpp line 22). -/
def TILT_MAX : ℤ := 180

/-- `const float SMOOTH_FACTOR = 0.3` (main.cpp line 26), idealised as `3/10`. -/
def SMOOTH_FACTOR : ℚ := 3 / 10

/-- Index of the first occurrence of `ch` in a character list, if any. -/
def findChar (ch : Char) : List Char → Option ℕ
  | [] => none
  | c :: cs => if c = ch then some 0 else (findChar ch cs).map (· + 1)

/-- Arduino `String.indexOf(ch, fromIndex)`: index of the first occurrence of `ch`
at position `fromIdx` or later, `-1` when there is none. -/
def indexOfFrom (s : List Char) (ch : Char) (fromIdx : ℕ) : ℤ :=
  match findChar ch (s.drop fromIdx) with
  | some i => ((fromIdx + i : ℕ) : ℤ)
  | none => -1

/-- Arduino `String.substring(left, right)`: the characters in `[left, right)`;
the arguments are swapped when out of order and clamped to the length. -/
def substring (s : List Char) (left right : ℕ) : List Char :=
  (s.take (max left right)).drop (min left right)

/-- Arduino `String.substring(from)`: the suffix starting at `from`. -/
def substringFrom (s : List Char) (left : ℕ) : List Char :=
  s.drop left

/-- The characters C `isspace` accepts, skipped by `atof` / `atol`. -/
def isSpaceChar (c : Char) : Bool :=
  c == ' ' || c == '\t' || c == '\n' || c == Char.ofNat 11 || c == Char.ofNat 12 || c == '\r'

/-- An optional leading sign, returning the sign factor and the rest. -/
def readSign : List Char → ℤ × List Char
  | '-' :: r => (-1, r)
  | '+' :: r => (1, r)
  | s => (1, s)

/-- The natural number denoted by a list of decimal digits (most significant first). -/
def digitsToNat (ds : List Char) : ℕ :=
  ds.foldl (fun a c => 10 * a + (c.toNat - 48)) 0

/-- The exponent part of `atof`: an `e`/`E` followed by an optional sign and at
least one digit; anything else contributes exponent `0`. -/
def readExp : List Char → ℤ
  | [] => 0
  | c :: r =>
    if c == 'e' || c == 'E' then
      let (sg, r2) := readSign r
      let ds := r2.takeWhile Char.isDigit
      if ds.isEmpty then 0 else sg * (digitsToNat ds : ℤ)
    else 0

/-- avr-libc `atof` as called by Arduino `String.toFloat`: skip blanks, optional
sign, integer digits, optional `.` and fraction digits, optional exponent; a
string with no digit in the mantissa converts to `0`. -/
def atof (s : List Char) : ℚ :=
  let s1 := s.dropWhile isSpaceChar
  let (sgn, s2) := readSign s1
  let ip := s2.takeWhile Char.isDigit
  let s3 := s2.dropWhile Char.isDigit
  let fpTail : List Char × List Char :=
    match s3 with
    | '.' :: r => (r.takeWhile Char.isDigit, r.dropWhile Char.isDigit)
    | _ => ([], s3)
  let fp := fpTail.1
  if ip.isEmpty && fp.isEmpty then 0
  else
    (sgn : ℚ) * ((digitsToNat ip : ℚ) + (digitsToNat fp : ℚ) / (10 : ℚ) ^ fp.length)
      * (10 : ℚ) ^ readExp fpTail.2

/-- avr-libc `atol` as called by Arduino `String.toInt`: skip blanks, optional
sign, leading digits; a string with no leading digits converts to `0`. -/
def atol (s : List Char) : ℤ :=
  let s1 := s.dropWhile isSpaceChar
  let (sgn, s2) := readSign s1
  sgn * (digitsToNat (s2.takeWhile Char.isDigit) : ℤ)

/-- The Arduino `constrain(x, a, b)` macro: `((x)<(a)?(a):((x)>(b)?(b):(x)))`. -/
def constrain (x lo hi : ℚ) : ℚ :=
  if x < lo then lo else if x > hi then hi else x

/-- A C cast from a floating value to an integer type: truncation toward zero. -/
def cTrunc (q : ℚ) : ℤ := q.num.tdiv q.den

/-- Arduino `map(x, in_min, in_max, out_min, out_max)` over C `long`s:
`(x - in_min) * (out_max - out_min) / (in_max - in_min) + out_min` with
truncating division. -/
def arduinoMap (x inMin inMax outMin outMax : ℤ) : ℤ :=
  ((x - inMin) * (outMax - outMin)).tdiv (inMax - inMin) + outMin

/-- The two persisted globals `currentPan` and `currentTilt` (main.cpp lines 16-17). -/
structure MachineState where
  currentPan : ℚ
  currentTilt : ℚ
deriving DecidableEq

/-- One hardware write performed by `parseCommand`: a pulse width to the pan or
tilt servo, or a level to the laser pin. -/
inductive Effect
  | panMicroseconds (us : ℤ)
  | tiltMicroseconds (us : ℤ)
  | laserWrite (high : Bool)
deriving DecidableEq

/-- `int firstColon = command.indexOf(':')` (main.cpp line 98). -/
def firstColonIdx (command : List Char) : ℤ :=
  indexOfFrom command ':' 0

/-- `int secondColon = command.indexOf(':', firstColon + 1)` (main.cpp line 99);
the `int` argument is converted to the `unsigned int` parameter, which for the
reachable values `firstColon ≥ -1` is `toNat`. -/
def secondColonIdx (command : List Char) : ℤ :=
  indexOfFrom command ':' (firstColonIdx command + 1).toNat

/-- `command.substring(0, firstColon)` (main.cpp line 102). -/
def panField (command : List Char) : List Char :=
  substring command 0 (firstColonIdx command).toNat

/-- `command.substring(firstColon + 1, secondColon)` (main.cpp line 103). -/
def tiltField (command : List Char) : List Char :=
  substring command ((firstColonIdx command).toNat + 1) (secondColonIdx command).toNat

/-- `command.substring(secondColon + 1)` (main.cpp line 104). -/
def laserField (command : List Char) : List Char :=
  substringFrom command ((secondColonIdx command).toNat + 1)

/-- The smoothing assignment `current = current + (target - current) * SMOOTH_FACTOR`
(main.cpp lines 115-116). -/
def smoothStep (current target : ℚ) : ℚ :=
  current + (target - current) * SMOOTH_FACTOR

/-- Shallow embedding of `parseCommand` (main.cpp lines 95-135): the updated
persisted state together with the list of hardware writes (empty when the line
is malformed). -/
def parseCommand (command : List Char) (s : MachineState) : MachineState × List Effect :=
  let firstColon := firstColonIdx command
  let secondColon := secondColonIdx command
  if firstColon > 0 ∧ secondColon > firstColon then
    let panDelta := atof (panField command)
    let tiltDelta := atof (tiltField command)
    let laser := atol (laserField command)
    let targetPan := constrain (s.currentPan - panDelta) (PAN_MIN : ℚ) (PAN_MAX : ℚ)
    let targetTilt := constrain (s.currentTilt + tiltDelta) (TILT_MIN : ℚ) (TILT_MAX : ℚ)
    let newPan := smoothStep s.currentPan targetPan
    let newTilt := smoothStep s.currentTilt targetTilt
    (⟨newPan, newTilt⟩,
      [Effect.panMicroseconds (arduinoMap (cTrunc newPan) PAN_MIN PAN_MAX 700 2500),
       Effect.tiltMicroseconds (arduinoMap (cTrunc newTilt) TILT_MIN TILT_MAX 700 2500),
       Effect.laserWrite (decide (laser ≠ 0))])
  else (s, [])

/-- The startup state: both axes centered at 90 degrees (main.cpp lines 16-17, 40-41). -/
def initialState : MachineState := ⟨90, 90⟩

/-- The control loop: fold `parseCommand` over a sequence of received lines,
starting from the startup state. -/
def runCommands (cmds : List (List Char)) : MachineState :=
  cmds.foldl (fun s c => (parseCommand c s).1) initialState

/-- The output mapping as the spec words it (`specification`, not the source):
the smoothed angle is linearly mapped from `[minAngle, maxAngle]` to
`[700, 2500]` and the result is truncated to an integer. -/
def specLinearDrive (angle : ℚ) (minAngle maxAngle : ℤ) : ℤ :=
  cTrunc ((angle - (minAngle : ℚ)) * (2500 - 700) / ((maxAngle : ℚ) - (minAngle : ℚ)) + 700)

/-- Both persisted angles lie within their compiled-in limits. -/
def InBounds (s : MachineState) : Prop :=
  (PAN_MIN : ℚ) ≤ s.currentPan ∧ s.currentPan ≤ (PAN_MAX : ℚ) ∧
    (TILT_MIN : ℚ) ≤ s.currentTilt ∧ s.currentTilt ≤ (TILT_MAX : ℚ)

lemma lo_le_constrain {x lo hi : ℚ} (h : lo ≤ hi) : lo ≤ constrain x lo hi := by
  unfold constrain
  split_ifs <;> linarith

lemma constrain_le_hi {x lo hi : ℚ} (h : lo ≤ hi) : constrain x lo hi ≤ hi := by
  unfold constrain
  split_ifs <;> linarith

lemma smoothStep_mem {c t lo hi : ℚ} (hc1 : lo ≤ c) (hc2 : c ≤ hi)
    (ht1 : lo ≤ t) (ht2 : t ≤ hi) :
    lo ≤ smoothStep c t ∧ smoothStep c t ≤ hi := by
  unfold smoothStep SMOOTH_FACTOR
  constructor <;> linarith

lemma parseCommand_inBounds (c : List Char) (s : MachineState) (h : InBounds s) :
    InBounds (parseCommand c s).1 := by
  obtain ⟨h1, h2, h3, h4⟩ := h
  have hpan : ((PAN_MIN : ℤ) : ℚ) ≤ ((PAN_MAX : ℤ) : ℚ) := by norm_num [PAN_MIN, PAN_MAX]
  have htilt : ((TILT_MIN : ℤ) : ℚ) ≤ ((TILT_MAX : ℤ) : ℚ) := by norm_num [TILT_MIN, TILT_MAX]
  simp only [parseCommand]
  split_ifs with hc
  · exact ⟨(smoothStep_mem h1 h2 (lo_le_constrain hpan) (constrain_le_hi hpan)).1,
      (smoothStep_mem h1 h2 (lo_le_constrain hpan) (constrain_le_hi hpan)).2,
      (smoothStep_mem h3 h4 (lo_le_constrain htilt) (constrain_le_hi htilt)).1,
      (smoothStep_mem h3 h4 (lo_le_constrain htilt) (constrain_le_hi htilt)).2⟩
  · exact ⟨h1, h2, h3, h4⟩

lemma foldl_parseCommand_inBounds :
    ∀ (cmds : List (List Char)) (s : MachineState), InBounds s →
      InBounds (cmds.foldl (fun s c => (parseCommand c s).1) s) := by
  intro cmds
  induction cmds with
  | nil => intro s h; exact h
  | cons c cs ih => intro s h; exact ih _ (parseCommand_inBounds c s h)

/-- Claim C1: starting from the initial state `currentPan = 90`, `currentTilt = 90`,
after every sequence of accepted commands each persisted angle stays within its
bounds: `currentPan ∈ [PAN_MIN, PAN_MAX]` and `currentTilt ∈ [TILT_MIN, TILT_MAX]`;
the smoothing step (a convex combination of the in-range current angle and the
already-clamped target) preserves this without re-clamping. -/
theorem claim_C1_clamping_invariant (cmds : List (List Char)) :
    (PAN_MIN : ℚ) ≤ (runCommands cmds).currentPan ∧
      (runCommands cmds).currentPan ≤ (PAN_MAX : ℚ) ∧
      (TILT_MIN : ℚ) ≤ (runCommands cmds).currentTilt ∧
      (runCommands cmds).currentTilt ≤ (TILT_MAX : ℚ) :=
  foldl_parseCommand_inBounds cmds initialState
    (by norm_num [InBounds, initialState, PAN_MIN, PAN_MAX, TILT_MIN, TILT_MAX])

/-- Claim C2: a line whose first `:` is not at a position greater than 0, or with
no second `:` after the first, is discarded: the persisted angles are unchanged
and no servo drive value and no laser gate value is written. -/
theorem claim_C2_malformed_noop (command : List Char) (s : MachineState)
    (h : ¬(firstColonIdx command > 0 ∧ secondColonIdx command > firstColonIdx command)) :
    parseCommand command s = (s, []) := by
  simp only [parseCommand]
  rw [if_neg h]

/-- Witness for claim C2: the delimiter-free line `"hello"` and the
single-delimiter line `"1.0:2.0"` are both no-ops. -/
theorem claim_C2_witness :
    parseCommand ("hello".toList) ⟨90, 90⟩ = (⟨90, 90⟩, []) ∧
      parseCommand ("1.0:2.0".toList) ⟨90, 90⟩ = (⟨90, 90⟩, []) :=
  ⟨claim_C2_malformed_noop _ _ (by decide), claim_C2_malformed_noop _ _ (by decide)⟩

/-- Claim C5: one smoothing step with a fixed clamped target moves the current
angle monotonically toward the target without passing it — the new value lies
between the old value and the target — and strictly decreases the distance to
the target whenever the two differ. -/
theorem claim_C5_monotone_convergence (current target : ℚ) :
    (current ≤ target →
      current ≤ smoothStep current target ∧ smoothStep current target ≤ target) ∧
    (target ≤ current →
      target ≤ smoothStep current target ∧ smoothStep current target ≤ current) ∧
    (current ≠ target →
      |target - smoothStep current target| < |target - current|) := by
  unfold smoothStep SMOOTH_FACTOR
  refine ⟨fun h => ⟨by linarith, by linarith⟩, fun h => ⟨by linarith, by linarith⟩, fun h => ?_⟩
  rcases lt_or_gt_of_ne h with hlt | hgt
  · rw [abs_of_pos (by linarith), abs_of_pos (by linarith)]
    linarith
  · rw [abs_of_neg (by linarith), abs_of_neg (by linarith)]
    linarith

/-- Witness for claim C5 at `current = 0`, `target = 10`. -/
theorem claim_C5_witness :
    ((0 : ℚ) ≤ smoothStep 0 10 ∧ smoothStep 0 10 ≤ 10) ∧
      |(10 : ℚ) - smoothStep 0 10| < |(10 : ℚ) - 0| :=
  ⟨(claim_C5_monotone_convergence 0 10).1 (by norm_num),
    (claim_C5_monotone_convergence 0 10).2.2 (by norm_num)⟩

/-- Claim C3: the pan target is computed by subtraction and the tilt target by
addition; from `currentPan = 90`, `currentTilt = 90` the command `"10:10:0"`
yields pan target 80 and tilt target 100, smoothed with factor 0.3 to
`currentPan = 87` and `currentTilt = 93`. -/
theorem claim_C3_sign_asymmetry :
    constrain ((90 : ℚ) - atof (panField ("10:10:0".toList))) (PAN_MIN : ℚ) (PAN_MAX : ℚ) = 80 ∧
      constrain ((90 : ℚ) + atof (tiltField ("10:10:0".toList))) (TILT_MIN : ℚ) (TILT_MAX : ℚ)
        = 100 ∧
      parseCommand ("10:10:0".toList) ⟨90, 90⟩ =
        (⟨87, 93⟩,
          [.panMicroseconds 1570, .tiltMicroseconds 1630, .laserWrite false]) :=
  ⟨by with_unfolding_all rfl, by with_unfolding_all rfl, by with_unfolding_all rfl⟩

/-- Counterexample to claim C4: the command `"15:0:0"` from the initial state is
accepted and smooths the pan angle to `85.5`, but the code drives the pan servo
with `1550`, not with the value `1555` that a linear map of the smoothed angle
truncated to an integer would give: the code truncates the angle to an integer
before mapping, so intermediate angles do not map linearly. -/
theorem claim_C4_counterexample :
    (parseCommand ("15:0:0".toList) ⟨90, 90⟩).1.currentPan = 171 / 2 ∧
      (parseCommand ("15:0:0".toList) ⟨90, 90⟩).2 =
        [.panMicroseconds 1550, .tiltMicroseconds 1600, .laserWrite false] ∧
      specLinearDrive (171 / 2) PAN_MIN PAN_MAX = 1555 ∧
      (1550 : ℤ) ≠ 1555 :=
  ⟨by with_unfolding_all rfl, by with_unfolding_all rfl, by with_unfolding_all rfl, by decide⟩

/-- Claim C4 as amended: an angle of exactly `PAN_MIN = 0` yields drive value
700 and an angle of exactly `PAN_MAX = 180` yields 2500, but an intermediate
angle is first truncated to an integer and then mapped linearly:
`drive = 700 + 10 * trunc angle`. -/
theorem claim_C4_amended_trunc_then_map :
    arduinoMap (cTrunc ((PAN_MIN : ℤ) : ℚ)) PAN_MIN PAN_MAX 700 2500 = 700 ∧
      arduinoMap (cTrunc ((PAN_MAX : ℤ) : ℚ)) PAN_MIN PAN_MAX 700 2500 = 2500 ∧
      ∀ angle : ℚ, arduinoMap (cTrunc angle) PAN_MIN PAN_MAX 700 2500 = 700 + 10 * cTrunc angle := by
  refine ⟨by with_unfolding_all rfl, by with_unfolding_all rfl, fun angle => ?_⟩
  unfold arduinoMap PAN_MIN PAN_MAX
  have h : (cTrunc angle - 0) * (2500 - 700) = (10 * cTrunc angle) * (180 - 0) := by ring
  rw [h, Int.mul_tdiv_cancel _ (by norm_num)]
  ring

/-- Claim C6: in a line with both delimiters at valid positions, a non-numeric
field parses to zero while the others are parsed normally and the command is
still applied: `"abc:2.0:1"` contributes no pan movement, moves tilt by 2.0
(smoothed from 90 to 90.6), and turns the laser gate on. -/
theorem claim_C6_numeric_degradation :
    atof ("abc".toList) = 0 ∧
      atof ("2.0".toList) = 2 ∧
      atol ("1".toList) = 1 ∧
      parseCommand ("abc:2.0:1".toList) ⟨90, 90⟩ =
        (⟨90, 453 / 5⟩,
          [.panMicroseconds 1600, .tiltMicroseconds 1600, .laserWrite true]) :=
  ⟨by with_unfolding_all rfl, by with_unfolding_all rfl, by with_unfolding_all rfl,
    by with_unfolding_all rfl⟩

/-- Claim C7: clamping is applied to the raw target before smoothing: from
`currentPan = 5` the command `"20:0:0"` produces raw target `-15`, clamped to
`PAN_MIN = 0`, and the smoothed result is `5 + (0 - 5) * 0.3 = 3.5`. -/
theorem claim_C7_clamp_then_smooth :
    (5 : ℚ) - atof (panField ("20:0:0".toList)) = -15 ∧
      constrain ((5 : ℚ) - atof (panField ("20:0:0".toList))) (PAN_MIN : ℚ) (PAN_MAX : ℚ) = 0 ∧
      parseCommand ("20:0:0".toList) ⟨5, 90⟩ =
        (⟨7 / 2, 90⟩,
          [.panMicroseconds 730, .tiltMicroseconds 1600, .laserWrite false]) :=
  ⟨by with_unfolding_all rfl, by with_unfolding_all rfl, by with_unfolding_all rfl⟩

/-- Claim C8: an accepted command performs exactly three hardware writes, in
order: one pan drive value, one tilt drive value, and one laser gate value that
is the boolean interpretation of the parsed flag (nonzero means active); no
persisted state besides `currentPan` and `currentTilt` exists to be modified. -/
theorem claim_C8_effects_once (command : List Char) (s : MachineState)
    (h : firstColonIdx command > 0 ∧ secondColonIdx command > firstColonIdx command) :
    (parseCommand command s).2 =
      [Effect.panMicroseconds
          (arduinoMap (cTrunc (parseCommand command s).1.currentPan) PAN_MIN PAN_MAX 700 2500),
        Effect.tiltMicroseconds
          (arduinoMap (cTrunc (parseCommand command s).1.currentTilt) TILT_MIN TILT_MAX 700 2500),
        Effect.laserWrite (decide (atol (laserField command) ≠ 0))] := by
  simp only [parseCommand, if_pos h]

/-- Witness for claim C8 at the accepted command `"1:2:3"`. -/
theorem claim_C8_witness :
    (parseCommand ("1:2:3".toList) ⟨90, 90⟩).2 =
      [Effect.panMicroseconds
          (arduinoMap (cTrunc (parseCommand ("1:2:3".toList) ⟨90, 90⟩).1.currentPan)
            PAN_MIN PAN_MAX 700 2500),
        Effect.tiltMicroseconds
          (arduinoMap (cTrunc (parseCommand ("1:2:3".toList) ⟨90, 90⟩).1.currentTilt)
            TILT_MIN TILT_MAX 700 2500),
        Effect.laserWrite (decide (atol (laserField ("1:2:3".toList)) ≠ 0))] :=
  claim_C8_effects_once _ _ (by decide)

/-- Claim C10: only the first two `:` delimiters are significant — `"1:2:3:4"`
is accepted, its laser field is the whole remainder `"3:4"` whose leading
integer prefix 3 turns the gate on — and an empty field between or after
delimiters parses as zero while the command is still applied (`"1::0"` and
`"1:2:"`). -/
theorem claim_C10_extra_delimiters :
    atol ("3:4".toList) = 3 ∧
      parseCommand ("1:2:3:4".toList) ⟨90, 90⟩ =
        (⟨897 / 10, 453 / 5⟩,
          [.panMicroseconds 1590, .tiltMicroseconds 1600, .laserWrite true]) ∧
      parseCommand ("1::0".toList) ⟨90, 90⟩ =
        (⟨897 / 10, 90⟩,
          [.panMicroseconds 1590, .tiltMicroseconds 1600, .laserWrite false]) ∧
      parseCommand ("1:2:".toList) ⟨90, 90⟩ =
        (⟨897 / 10, 453 / 5⟩,
          [.panMicroseconds 1590, .tiltMicroseconds 1600, .laserWrite false]) :=
  ⟨by with_unfolding_all rfl, by with_unfolding_all rfl, by with_unfolding_all rfl,
    by with_unfolding_all rfl⟩

lemma findChar_append {ch : Char} {pre rest : List Char} (h : ch ∉ pre) :
    findChar ch (pre ++ ch :: rest) = some pre.length := by
  induction pre with
  | nil => simp [findChar]
  | cons c cs ih =>
      have h1 : ¬ c = ch := by
        intro e
        exact h (by rw [e]; exact List.mem_cons_self _ _)
      have h2 : ch ∉ cs := fun m => h (List.mem_cons_of_mem _ m)
      simp [findChar, h1, ih h2]

lemma firstColonIdx_append {pre rest : List Char} (h : ':' ∉ pre) :
    firstColonIdx (pre ++ ':' :: rest) = (pre.length : ℤ) := by
  unfold firstColonIdx indexOfFrom
  rw [List.drop_zero, findChar_append h]
  simp

lemma secondColonIdx_append {pre mid suf : List Char} (hp : ':' ∉ pre) (hm : ':' ∉ mid) :
    secondColonIdx (pre ++ ':' :: (mid ++ ':' :: suf)) =
      (pre.length : ℤ) + 1 + (mid.length : ℤ) := by
  unfold secondColonIdx
  rw [firstColonIdx_append hp]
  have h1 : ((pre.length : ℤ) + 1).toNat = pre.length + 1 := by omega
  rw [h1]
  unfold indexOfFrom
  have h2 : (pre ++ ':' :: (mid ++ ':' :: suf)).drop (pre.length + 1) = mid ++ ':' :: suf := by
    have e : pre ++ ':' :: (mid ++ ':' :: suf) = (pre ++ [':']) ++ (mid ++ ':' :: suf) := by
      simp
    rw [e]
    have hl : pre.length + 1 = (pre ++ [':']).length := by simp
    rw [hl, List.drop_left]
  rw [h2, findChar_append hm]
  push_cast
  omega

lemma panField_append {pre rest : List Char} (h : ':' ∉ pre) :
    panField (pre ++ ':' :: rest) = pre := by
  unfold panField substring
  rw [firstColonIdx_append h]
  simp [List.take_left]

lemma tiltField_append {pre mid suf : List Char} (hp : ':' ∉ pre) (hm : ':' ∉ mid) :
    tiltField (pre ++ ':' :: (mid ++ ':' :: suf)) = mid := by
  unfold tiltField substring
  rw [firstColonIdx_append hp, secondColonIdx_append hp hm]
  have h1 : ((pre.length : ℤ)).toNat = pre.length := by omega
  have h2 : ((pre.length : ℤ) + 1 + (mid.length : ℤ)).toNat = pre.length + 1 + mid.length := by
    omega
  rw [h1, h2]
  have hmin : min (pre.length + 1) (pre.length + 1 + mid.length) = pre.length + 1 := by omega
  have hmax : max (pre.length + 1) (pre.length + 1 + mid.length) =
      pre.length + 1 + mid.length := by omega
  rw [hmin, hmax]
  have e : pre ++ ':' :: (mid ++ ':' :: suf) = (pre ++ [':']) ++ (mid ++ ':' :: suf) := by simp
  rw [e, List.take_append_eq_append_take]
  have t1 : (pre ++ [':']).take (pre.length + 1 + mid.length) = pre ++ [':'] :=
    List.take_of_length_le (by simp)
  have t2 : pre.length + 1 + mid.length - (pre ++ [':']).length = mid.length := by simp
  rw [t1, t2]
  have t3 : (mid ++ ':' :: suf).take mid.length = mid := List.take_left mid _
  rw [t3]
  have t4 : pre.length + 1 = (pre ++ [':']).length := by simp
  rw [t4, List.drop_left]

lemma laserField_append {pre mid suf : List Char} (hp : ':' ∉ pre) (hm : ':' ∉ mid) :
    laserField (pre ++ ':' :: (mid ++ ':' :: suf)) = suf := by
  unfold laserField substringFrom
  rw [secondColonIdx_append hp hm]
  have h1 : ((pre.length : ℤ) + 1 + (mid.length : ℤ)).toNat + 1 =
      pre.length + 1 + mid.length + 1 := by omega
  rw [h1]
  have e : pre ++ ':' :: (mid ++ ':' :: suf) = ((pre ++ [':']) ++ (mid ++ [':'])) ++ suf := by
    simp
  rw [e]
  have hl : pre.length + 1 + mid.length + 1 = ((pre ++ [':']) ++ (mid ++ [':'])).length := by
    simp
    omega
  rw [hl, List.drop_left]

/-- Decoding a well-delimited frame `pre ++ ":" ++ mid ++ ":" ++ suf` (first two
delimiters at their intended positions): the update and the three writes in
terms of the three fields. -/
lemma parseCommand_append (pre mid suf : List Char) (s : MachineState)
    (hne : pre ≠ []) (hp : ':' ∉ pre) (hm : ':' ∉ mid) :
    parseCommand (pre ++ ':' :: (mid ++ ':' :: suf)) s =
      (⟨smoothStep s.currentPan
            (constrain (s.currentPan - atof pre) (PAN_MIN : ℚ) (PAN_MAX : ℚ)),
          smoothStep s.currentTilt
            (constrain (s.currentTilt + atof mid) (TILT_MIN : ℚ) (TILT_MAX : ℚ))⟩,
        [Effect.panMicroseconds
            (arduinoMap (cTrunc (smoothStep s.currentPan
              (constrain (s.currentPan - atof pre) (PAN_MIN : ℚ) (PAN_MAX : ℚ))))
              PAN_MIN PAN_MAX 700 2500),
          Effect.tiltMicroseconds
            (arduinoMap (cTrunc (smoothStep s.currentTilt
              (constrain (s.currentTilt + atof mid) (TILT_MIN : ℚ) (TILT_MAX : ℚ))))
              TILT_MIN TILT_MAX 700 2500),
          Effect.laserWrite (decide (atol suf ≠ 0))]) := by
  have hlen : 0 < pre.length := List.length_pos.mpr hne
  have hcond : firstColonIdx (pre ++ ':' :: (mid ++ ':' :: suf)) > 0 ∧
      secondColonIdx (pre ++ ':' :: (mid ++ ':' :: suf)) >
        firstColonIdx (pre ++ ':' :: (mid ++ ':' :: suf)) := by
    rw [firstColonIdx_append hp, secondColonIdx_append hp hm]
    constructor
    · exact_mod_cast hlen
    · omega
  simp only [parseCommand]
  rw [if_pos hcond, panField_append hp, tiltField_append hp hm, laserField_append hp hm]

/-- Claim C9: the laser field does not influence axis motion — two accepted
lines with identical pan and tilt fields that differ only in the text after the
second `:` produce, from any common starting state, the same `currentPan`, the
same `currentTilt` and the same two servo drive writes; only the gate write can
differ. -/
theorem claim_C9_laser_noninterference (pre mid suf1 suf2 : List Char) (s : MachineState)
    (hne : pre ≠ []) (hp : ':' ∉ pre) (hm : ':' ∉ mid) :
    (parseCommand (pre ++ ':' :: (mid ++ ':' :: suf1)) s).1 =
        (parseCommand (pre ++ ':' :: (mid ++ ':' :: suf2)) s).1 ∧
      ((parseCommand (pre ++ ':' :: (mid ++ ':' :: suf1)) s).2).take 2 =
        ((parseCommand (pre ++ ':' :: (mid ++ ':' :: suf2)) s).2).take 2 ∧
      (parseCommand (pre ++ ':' :: (mid ++ ':' :: suf1)) s).2 ≠ [] := by
  rw [parseCommand_append pre mid suf1 s hne hp hm,
    parseCommand_append pre mid suf2 s hne hp hm]
  exact ⟨rfl, rfl, by simp⟩

/-- Witness for claim C9: the lines `"1:2:0"` and `"1:2:9"` from the initial
state. -/
theorem claim_C9_witness :
    (parseCommand (['1'] ++ ':' :: (['2'] ++ ':' :: ['0'])) ⟨90, 90⟩).1 =
        (parseCommand (['1'] ++ ':' :: (['2'] ++ ':' :: ['9'])) ⟨90, 90⟩).1 ∧
      ((parseCommand (['1'] ++ ':' :: (['2'] ++ ':' :: ['0'])) ⟨90, 90⟩).2).take 2 =
        ((parseCommand (['1'] ++ ':' :: (['2'] ++ ':' :: ['9'])) ⟨90, 90⟩).2).take 2 ∧
      (parseCommand (['1'] ++ ':' :: (['2'] ++ ':' :: ['0'])) ⟨90, 90⟩).2 ≠ [] :=
  claim_C9_laser_noninterference ['1'] ['2'] ['0'] ['9'] ⟨90, 90⟩
    (by decide) (by decide) (by decide)

end SRT
